import Mathlib

/-!
# API-key resource of the Elasticsearch security provider

A shallow embedding of `internal/provider/resource_api_key.go`:

* the values that travel through Go's `map[string]interface{}` bodies,
* the Terraform attribute values (`types.String`, `types.List`, `types.Set`)
  with their null / unknown / known states,
* `transformApiKeyResourceBody`, which builds the `role_descriptors` body,
* the `Create`, `Update` and `Delete` operations as functions from the decoded
  plan (or prior state) and the outcome of the single network call to an
  `Outcome` record (diagnostics, request body, use of the response, run-time
  fault, persisted state).

Conventions of the embedding.

* A Go `map[string]interface{}` is an association list with pairwise distinct
  keys, kept in order of first insertion; `mapSet` is the assignment
  `m[k] = v` and `mapGet` the lookup `m[k]`.
* A `[]string` is `Option (List String)`, `none` being the nil slice, which
  `encoding/json` writes as `null` while an empty non-nil slice is written
  as `[]`.
* The plugin framework's `ElementsAs(ctx, &target, false)` is `Tf.ElementsAs`.
  A known collection whose elements can all be stored in the slice's element
  type replaces the target by its elements; when one element cannot be stored
  the call fails and the target keeps what it held, the slice pre-allocated
  with `make`.  A null collection replaces a slice target by the nil slice (a
  slice can hold nil); an unknown collection is an error and leaves the target
  as it was.  The source drops the diagnostics the call returns, so a failed
  call is only visible in the slice it leaves.
* A string element of a list is itself null, unknown or known; a Go `string`
  can hold only a known one (`intoString`).  The elements of a set of nested
  objects are objects, stored in structs whose fields are attribute values
  (`intoStruct`).
-/

namespace ApiKey

/-! ## Values of `map[string]interface{}` bodies -/

/-- A value stored in, or decoded into, a `map[string]interface{}`, seen as
the JSON document `encoding/json` writes for it.  `null` is a nil slice or a
nil interface, `num` stands for a JSON number. -/
inductive Value where
  | null
  | bool (b : Bool)
  | num (n : Int)
  | str (s : String)
  | arr (xs : List Value)
  | obj (kvs : List (String × Value))
  deriving Repr

/-- A Go `map[string]interface{}`. -/
abbrev GoMap := List (String × Value)

/-- The assignment `m[k] = v`: overwrite the binding of `k` when there is one,
add a binding otherwise. -/
def mapSet : GoMap → String → Value → GoMap
  | [], k, v => [(k, v)]
  | (k', v') :: m, k, v => if k' = k then (k, v) :: m else (k', v') :: mapSet m k v

/-- The lookup `m[k]`; `none` when the key is absent (Go yields the nil
interface). -/
def mapGet : GoMap → String → Option Value
  | [], _ => none
  | (k', v') :: m, k => if k' = k then some v' else mapGet m k

/-- The keys of a map. -/
def mapKeys (m : GoMap) : List String := m.map Prod.fst

/-- A `[]string` as a value: the nil slice is `null`, any other slice is the
array of its strings. -/
def stringsValue : Option (List String) → Value
  | none => Value.null
  | some xs => Value.arr (xs.map Value.str)

/-! ## Terraform attribute values -/

/-- An attribute value of the plugin framework: null (not supplied), unknown
(not yet computed) or known. -/
inductive Tf (α : Type) where
  | null
  | unknown
  | known (v : α)
  deriving Repr

/-- The method `ValueString()` of `types.String`: the string when known, `""`
otherwise. -/
def Tf.ValueString : Tf String → String
  | Tf.known s => s
  | _ => ""

/-- The method `Elements()` of a `types.List` or `types.Set`: the elements when
known, none otherwise. -/
def Tf.Elements {α : Type} : Tf (List α) → List α
  | Tf.known xs => xs
  | _ => []

/-- The allocation `make([]T, n)`: a non-nil slice of `n` zero values. -/
def goMake {α : Type} (n : Nat) (zero : α) : Option (List α) :=
  some (List.replicate n zero)

/-- Storing a string element in a Go `string`: only a known string can be
stored, a null or unknown element is an error (`none`). -/
def intoString : Tf String → Option String
  | Tf.known s => some s
  | _ => none

/-- Storing an object element in a Go struct whose fields are attribute
values: every object can be stored. -/
def intoStruct {α : Type} (x : α) : Option α := some x

/-- Storing the elements one after the other, as the framework's reflection
does for a slice target; `none` as soon as one element cannot be stored. -/
def buildAll {α β : Type} (build : α → Option β) : List α → Option (List β)
  | [] => some []
  | x :: xs =>
    match build x with
    | none => none
    | some y =>
      match buildAll build xs with
      | none => none
      | some ys => some (y :: ys)

/-- The call `ElementsAs(ctx, &target, false)` on a `types.List` or `types.Set`
with a slice target whose elements are stored by `build`; the result is the
slice the target holds afterwards.  On an error (an unknown collection, or an
element that cannot be stored) the target is left as it was. -/
def Tf.ElementsAs {α β : Type} (l : Tf (List α)) (build : α → Option β)
    (target : Option (List β)) : Option (List β) :=
  match l with
  | Tf.known xs =>
    match buildAll build xs with
    | some ys => some ys
    | none => target
  | Tf.null => none
  | Tf.unknown => target

/-- A supplied list whose elements are the non-null strings `xs`. -/
def suppliedStrings (xs : List String) : Tf (List (Tf String)) :=
  Tf.known (xs.map Tf.known)

/-- The elements a `range` loop visits: none for the nil slice. -/
def sliceElems {α : Type} : Option (List α) → List α
  | none => []
  | some xs => xs

/-! ## Resource model -/

/-- The Go struct `Index`. -/
structure Index where
  Names : Tf (List (Tf String))
  Privileges : Tf (List (Tf String))
  deriving Repr

/-- The Go struct `RoleDescriptor` (the field is spelt `Indicies` in the
source). -/
structure RoleDescriptor where
  Name : Tf String
  Cluster : Tf (List (Tf String))
  Indicies : Tf (List Index)
  deriving Repr

/-- The Go struct `ApiKeyResourceModel`. -/
structure ApiKeyResourceModel where
  Id : Tf String
  ApiKey : Tf String
  Encoded : Tf String
  Name : Tf String
  RoleDescriptors : Tf (List RoleDescriptor)
  deriving Repr

/-- Zero value of `Index`. -/
def Index.zero : Index := ⟨Tf.null, Tf.null⟩

/-- Zero value of `RoleDescriptor`. -/
def RoleDescriptor.zero : RoleDescriptor := ⟨Tf.null, Tf.null, Tf.null⟩

/-! ## `transformApiKeyResourceBody` -/

/-- The map literal built for one `rawIndex` in the inner loop (source lines
155-164). -/
def indexBody (rawIndex : Index) : Value :=
  let names :=
    rawIndex.Names.ElementsAs intoString (goMake rawIndex.Names.Elements.length "")
  let privileges :=
    rawIndex.Privileges.ElementsAs intoString
      (goMake rawIndex.Privileges.Elements.length "")
  Value.obj [("names", stringsValue names), ("privileges", stringsValue privileges)]

/-- The inner loop `for i, rawIndex := range rawIndices { index[i] = ... }`
run on `index := make([]interface{}, len(rawIndices))`. -/
def fillIndex (rawIndices : List Index) : List Value :=
  rawIndices.enum.foldl (fun index p => index.set p.1 (indexBody p.2))
    (List.replicate rawIndices.length Value.null)

/-- The map literal stored under a role name (source lines 147-170). -/
def roleBody (roleDescriptor : RoleDescriptor) : Value :=
  let cluster :=
    roleDescriptor.Cluster.ElementsAs intoString
      (goMake roleDescriptor.Cluster.Elements.length "")
  let rawIndices :=
    roleDescriptor.Indicies.ElementsAs intoStruct
      (goMake roleDescriptor.Indicies.Elements.length Index.zero)
  let index := fillIndex (sliceElems rawIndices)
  Value.obj [("cluster", stringsValue cluster), ("index", Value.arr index)]

/-- The slice `rawRoleDescriptors` after `ElementsAs` (source lines 141-142). -/
def rawRoleDescriptors (data : ApiKeyResourceModel) : List RoleDescriptor :=
  sliceElems
    (data.RoleDescriptors.ElementsAs intoStruct
      (goMake data.RoleDescriptors.Elements.length RoleDescriptor.zero))

/-- The map `roleDescriptors` after the outer loop (source lines 139-171). -/
def roleDescriptorsMap (data : ApiKeyResourceModel) : GoMap :=
  (rawRoleDescriptors data).foldl
    (fun roleDescriptors roleDescriptor =>
      mapSet roleDescriptors roleDescriptor.Name.ValueString (roleBody roleDescriptor))
    []

/-- The function `transformApiKeyResourceBody`: the map `bodyJson` it
returns. -/
def transformApiKeyResourceBody (data : ApiKeyResourceModel) : GoMap :=
  let bodyJson : GoMap := []
  mapSet bodyJson "role_descriptors" (Value.obj (roleDescriptorsMap data))

/-- The value stored under `roleName` in the `role_descriptors` object of the
body `transformApiKeyResourceBody` returns. -/
def emittedRole (data : ApiKeyResourceModel) (roleName : String) : Option Value :=
  match mapGet (transformApiKeyResourceBody data) "role_descriptors" with
  | some (Value.obj roleDescriptors) => mapGet roleDescriptors roleName
  | _ => none

/-- Member `k` of an object value. -/
def Value.field : Value → String → Option Value
  | Value.obj kvs, k => mapGet kvs k
  | _, _ => none

/-- Element `i` of an array value. -/
def Value.item : Value → Nat → Option Value
  | Value.arr xs, i => xs.get? i
  | _, _ => none

/-- The value under `cluster` in the object emitted for `roleName`. -/
def emittedCluster (data : ApiKeyResourceModel) (roleName : String) : Option Value :=
  (emittedRole data roleName).bind (fun body => body.field "cluster")

/-- The value under `index` in the object emitted for `roleName`. -/
def emittedIndex (data : ApiKeyResourceModel) (roleName : String) : Option Value :=
  (emittedRole data roleName).bind (fun body => body.field "index")

/-- Element `i` of the `index` array emitted for `roleName`. -/
def emittedEntry (data : ApiKeyResourceModel) (roleName : String) (i : Nat) : Option Value :=
  (emittedIndex data roleName).bind (fun index => index.item i)

/-- The value under `names` in element `i` of the `index` array emitted for
`roleName`. -/
def emittedNames (data : ApiKeyResourceModel) (roleName : String) (i : Nat) : Option Value :=
  (emittedEntry data roleName i).bind (fun entry => entry.field "names")

/-- The value under `privileges` in element `i` of the `index` array emitted
for `roleName`. -/
def emittedPrivileges (data : ApiKeyResourceModel) (roleName : String) (i : Nat) :
    Option Value :=
  (emittedEntry data roleName i).bind (fun entry => entry.field "privileges")

/-! ## The operations `Create`, `Update` and `Delete` -/

/-- An error diagnostic added with `resp.Diagnostics.AddError`. -/
structure Diag where
  summary : String
  detail : String
  deriving Repr

/-- What `apiReq.Do` returned: `(nil, err)` on a transport error, otherwise a
response with its `IsError()`, its `Status()` and the result of decoding its
body into `map[string]interface{}`. -/
inductive DoResult where
  | transportError (err : String)
  | response (isError : Bool) (status : String) (decoded : Except String GoMap)
  deriving Repr

/-- What an operation did: the diagnostics it added, the request body it
encoded, whether it dereferenced `apiRes`, whether it ended in a run-time
panic, and the data it passed to `resp.State.Set`. -/
structure Outcome where
  diags : List Diag
  request : Option Value
  responseUsed : Bool
  faulted : Bool
  stateSet : Option ApiKeyResourceModel
  deriving Repr

/-- The unchecked type assertion `x.(string)` on a looked-up member: `none`
is the run-time panic (member absent, or not a string). -/
def assertString : Option Value → Option String
  | some (Value.str s) => some s
  | _ => none

/-- The method `Create`.  `plan` is the result of `req.Plan.Get`, `doResult`
the result of `apiReq.Do`. Encoding the body cannot fail for the values the
body holds, so that branch (source lines 195-197) is never taken. -/
def Create (plan : Except Diag ApiKeyResourceModel) (doResult : DoResult) : Outcome :=
  match plan with
  | Except.error d =>
    ⟨[d, ⟨"Configuration Error", "Error when parsing attributes"⟩], none, false, false, none⟩
  | Except.ok data =>
    let bodyJson := transformApiKeyResourceBody data
    let bodyJson := mapSet bodyJson "name" (Value.str data.Name.ValueString)
    let request := some (Value.obj bodyJson)
    match doResult with
    | DoResult.transportError err =>
      ⟨[⟨"API Error", "Error getting response: " ++ err⟩], request, false, false, none⟩
    | DoResult.response isError status decoded =>
      if isError then
        ⟨[⟨"API Error", "[" ++ status ++ "] Error creating API key"⟩], request, true, false, none⟩
      else
        match decoded with
        | Except.error err =>
          ⟨[⟨"JSON Decode Error", "Error parsing the response body: " ++ err⟩],
            request, true, false, none⟩
        | Except.ok result =>
          match assertString (mapGet result "id") with
          | none => ⟨[], request, true, true, none⟩
          | some id =>
            match assertString (mapGet result "api_key") with
            | none => ⟨[], request, true, true, none⟩
            | some apiKey =>
              match assertString (mapGet result "encoded") with
              | none => ⟨[], request, true, true, none⟩
              | some encoded =>
                ⟨[], request, true, false,
                  some ⟨Tf.known id, Tf.known apiKey, Tf.known encoded, data.Name,
                    data.RoleDescriptors⟩⟩

/-- The method `Update`. -/
def Update (plan : Except Diag ApiKeyResourceModel) (doResult : DoResult) : Outcome :=
  match plan with
  | Except.error d =>
    ⟨[d, ⟨"Configuration Error", "Error when parsing attributes"⟩], none, false, false, none⟩
  | Except.ok data =>
    let bodyJson := transformApiKeyResourceBody data
    let request := some (Value.obj bodyJson)
    match doResult with
    | DoResult.transportError err =>
      ⟨[⟨"API Error", "Error getting response: " ++ err⟩], request, false, false, none⟩
    | DoResult.response isError status decoded =>
      if isError then
        ⟨[⟨"API Error", "[" ++ status ++ "] Error updating API key"⟩], request, true, false, none⟩
      else
        match decoded with
        | Except.error err =>
          ⟨[⟨"JSON Decode Error", "Error parsing the response body: " ++ err⟩],
            request, true, false, none⟩
        | Except.ok _ => ⟨[], request, true, false, some data⟩

/-- The method `Delete`.  `state` is the result of `req.State.Get`.  After a
transport error the source adds the diagnostic and goes on (there is no
`return` in the branch at lines 329-331): the next statement,
`defer apiRes.Body.Close()`, reads the field `Body` of the nil `apiRes`, which
is a nil-pointer panic. -/
def Delete (state : Except Diag ApiKeyResourceModel) (doResult : DoResult) : Outcome :=
  match state with
  | Except.error d =>
    ⟨[d, ⟨"Configutation Error", "Error when parsing attributes"⟩], none, false, false, none⟩
  | Except.ok data =>
    let bodyJson : GoMap := [("ids", stringsValue (some [data.Id.ValueString]))]
    let request := some (Value.obj bodyJson)
    match doResult with
    | DoResult.transportError err =>
      ⟨[⟨"API Error", "Error getting response: " ++ err⟩], request, true, true, none⟩
    | DoResult.response isError status decoded =>
      if isError then
        ⟨[⟨"API Error", "[" ++ status ++ "] Error creating API key"⟩], request, true, false, none⟩
      else
        match decoded with
        | Except.error err =>
          ⟨[⟨"JSON Decode Error", "Error parsing the response body: " ++ err⟩],
            request, true, false, none⟩
        | Except.ok _ => ⟨[], request, true, false, none⟩

/-! ## Inputs used in the scenarios -/

/-- The plan of the acceptance test: one role `role-a`, `cluster` and `indices`
not supplied; the computed attributes are unknown at create time. -/
def planBare : ApiKeyResourceModel :=
  ⟨Tf.unknown, Tf.unknown, Tf.unknown, Tf.known "one",
    Tf.known [⟨Tf.known "role-a", Tf.null, Tf.null⟩]⟩

/-- One role `role-a` with `cluster = []` and `indices = []` supplied. -/
def planEmpty : ApiKeyResourceModel :=
  ⟨Tf.unknown, Tf.unknown, Tf.unknown, Tf.known "one",
    Tf.known [⟨Tf.known "role-a", Tf.known [], Tf.known []⟩]⟩

/-- A role `role-a` with `cluster = []` and one Index entry whose `names` and
`privileges` are the empty list. -/
def roleEmptyEntry : RoleDescriptor :=
  ⟨Tf.known "role-a", Tf.known [], Tf.known [⟨Tf.known [], Tf.known []⟩]⟩

/-- The single role `roleEmptyEntry`. -/
def planEmptyEntry : ApiKeyResourceModel :=
  ⟨Tf.unknown, Tf.unknown, Tf.unknown, Tf.known "one", Tf.known [roleEmptyEntry]⟩

/-- One role `role-a` whose `cluster` list is `["a", null]`: a list of strings
with a null element, which the schema admits. -/
def planNullElement : ApiKeyResourceModel :=
  ⟨Tf.unknown, Tf.unknown, Tf.unknown, Tf.known "one",
    Tf.known [⟨Tf.known "role-a", Tf.known [Tf.known "a", Tf.null], Tf.null⟩]⟩

/-- The role of the index-grant scenario. -/
def roleGrant : RoleDescriptor :=
  ⟨Tf.known "role-a", suppliedStrings ["monitor"],
    Tf.known [⟨suppliedStrings ["logs-*"], suppliedStrings ["read"]⟩]⟩

/-- The index-grant scenario: the single role `roleGrant`. -/
def planGrant : ApiKeyResourceModel :=
  ⟨Tf.unknown, Tf.unknown, Tf.unknown, Tf.known "one", Tf.known [roleGrant]⟩

/-- A role with repeated privileges and two index entries. -/
def roleRepeat : RoleDescriptor :=
  ⟨Tf.known "role-b", suppliedStrings ["monitor", "manage", "monitor"],
    Tf.known [⟨suppliedStrings ["logs-*"], suppliedStrings ["read"]⟩,
      ⟨suppliedStrings ["b", "a", "b"], suppliedStrings ["write", "read", "read"]⟩]⟩

/-- A plan with the two roles `roleGrant` and `roleRepeat`. -/
def planTwo : ApiKeyResourceModel :=
  ⟨Tf.unknown, Tf.unknown, Tf.unknown, Tf.known "two", Tf.known [roleGrant, roleRepeat]⟩

/-! ## Lemmas on maps and on the loops -/

theorem fillIndex_from (f : Index → Value) (rest : List Index) (done : List Value) :
    (rest.enumFrom done.length).foldl (fun index p => index.set p.1 (f p.2))
      (done ++ List.replicate rest.length Value.null) = done ++ rest.map f := by
  induction rest generalizing done with
  | nil => simp
  | cons r rs ih =>
    have h := ih (done ++ [f r])
    simp only [List.length_append, List.length_singleton, List.append_assoc,
      List.singleton_append] at h
    simp only [List.enumFrom_cons, List.foldl_cons, List.length_cons, List.replicate_succ,
      List.map_cons]
    rw [List.set_append_right _ _ (le_refl _)]
    simpa using h

theorem fillIndex_eq_map (rawIndices : List Index) :
    fillIndex rawIndices = rawIndices.map indexBody := by
  have h := fillIndex_from indexBody rawIndices []
  simpa [fillIndex, List.enum] using h

theorem mapGet_mapSet (m : GoMap) (k k' : String) (v : Value) :
    mapGet (mapSet m k v) k' = if k = k' then some v else mapGet m k' := by
  induction m with
  | nil => simp [mapSet, mapGet]
  | cons p m ih =>
    obtain ⟨a, b⟩ := p
    by_cases h : a = k
    · subst h
      by_cases h2 : a = k' <;> simp [mapSet, mapGet, h2]
    · by_cases h2 : a = k'
      · subst h2
        have h3 : ¬ k = a := fun e => h e.symm
        simp [mapSet, mapGet, h, h3]
      · simp [mapSet, mapGet, h, h2, ih]

theorem mem_mapKeys_mapSet (m : GoMap) (k k' : String) (v : Value) :
    k' ∈ mapKeys (mapSet m k v) ↔ k' = k ∨ k' ∈ mapKeys m := by
  induction m with
  | nil => simp [mapSet, mapKeys]
  | cons p m ih =>
    obtain ⟨a, b⟩ := p
    simp only [mapKeys] at ih
    by_cases h : a = k
    · subst h
      simp [mapSet, mapKeys]
    · simp only [mapSet, h, if_false, mapKeys, List.map_cons, List.mem_cons, ih]
      tauto

theorem nodup_mapKeys_mapSet (m : GoMap) (k : String) (v : Value)
    (hm : (mapKeys m).Nodup) : (mapKeys (mapSet m k v)).Nodup := by
  induction m with
  | nil => simp [mapSet, mapKeys]
  | cons p m ih =>
    obtain ⟨a, b⟩ := p
    have hm2 : a ∉ mapKeys m ∧ (mapKeys m).Nodup := by
      simpa [mapKeys] using hm
    by_cases h : a = k
    · subst h
      simpa [mapSet, mapKeys] using hm
    · have h1 : a ∉ mapKeys (mapSet m k v) := by
        rw [mem_mapKeys_mapSet]
        rintro (e | e)
        · exact h e
        · exact hm2.1 e
      have h2 := ih hm2.2
      simp only [mapSet, h, if_false]
      simp only [mapKeys, List.map_cons, List.nodup_cons]
      exact ⟨h1, h2⟩

theorem buildAll_intoStruct {α : Type} (xs : List α) : buildAll intoStruct xs = some xs := by
  induction xs with
  | nil => rfl
  | cons x xs ih => simp [buildAll, intoStruct, ih]

theorem buildAll_intoString_known (xs : List String) :
    buildAll intoString (xs.map Tf.known) = some xs := by
  induction xs with
  | nil => rfl
  | cons x xs ih => simp [buildAll, intoString, ih]

theorem ElementsAs_supplied (xs : List String) (target : Option (List String)) :
    (suppliedStrings xs).ElementsAs intoString target = some xs := by
  simp [suppliedStrings, Tf.ElementsAs, buildAll_intoString_known]

theorem ElementsAs_empty (target : Option (List String)) :
    (Tf.known ([] : List (Tf String))).ElementsAs intoString target = some [] := rfl

theorem sliceElems_ElementsAs {α : Type} (t : Tf (List α)) (zero : α) :
    sliceElems (t.ElementsAs intoStruct (goMake t.Elements.length zero)) = t.Elements := by
  cases t <;> simp [Tf.ElementsAs, Tf.Elements, sliceElems, goMake, buildAll_intoStruct]

theorem rawRoleDescriptors_eq (data : ApiKeyResourceModel) :
    rawRoleDescriptors data = data.RoleDescriptors.Elements :=
  sliceElems_ElementsAs _ _

theorem foldl_mapGet (rds : List RoleDescriptor) (n : String) :
    mapGet (rds.foldl (fun m rd => mapSet m rd.Name.ValueString (roleBody rd)) []) n =
      (rds.reverse.find? (fun rd => decide (rd.Name.ValueString = n))).map roleBody := by
  induction rds using List.reverseRecOn with
  | nil => simp [mapGet]
  | append_singleton xs x ih =>
    rw [List.foldl_append]
    simp only [List.foldl_cons, List.foldl_nil, mapGet_mapSet, List.reverse_append,
      List.reverse_singleton, List.singleton_append, List.find?_cons]
    by_cases h : x.Name.ValueString = n
    · simp [h]
    · simp [h, ih]

theorem foldl_mapKeys (rds : List RoleDescriptor) :
    (∀ k, k ∈ mapKeys (rds.foldl (fun m rd => mapSet m rd.Name.ValueString (roleBody rd)) []) ↔
        k ∈ rds.map (fun rd => rd.Name.ValueString)) ∧
      (mapKeys (rds.foldl (fun m rd => mapSet m rd.Name.ValueString (roleBody rd)) [])).Nodup := by
  induction rds using List.reverseRecOn with
  | nil => simp [mapKeys]
  | append_singleton xs x ih =>
    rw [List.foldl_append]
    simp only [List.foldl_cons, List.foldl_nil]
    refine ⟨fun k => ?_, nodup_mapKeys_mapSet _ _ _ ih.2⟩
    rw [mem_mapKeys_mapSet, ih.1 k]
    simp only [List.map_append, List.map_cons, List.map_nil, List.mem_append, List.mem_singleton]
    tauto

theorem find_last_of_nodup (rds : List RoleDescriptor) (rd : RoleDescriptor) (hmem : rd ∈ rds)
    (huniq : (rds.map (fun r => r.Name.ValueString)).Nodup) :
    rds.reverse.find? (fun r => decide (r.Name.ValueString = rd.Name.ValueString)) = some rd := by
  cases hf : rds.reverse.find? (fun r => decide (r.Name.ValueString = rd.Name.ValueString)) with
  | none =>
    rw [List.find?_eq_none] at hf
    have h := hf rd (by simpa using hmem)
    simp at h
  | some x =>
    have hx : x ∈ rds := by simpa using List.mem_of_find?_eq_some hf
    have hp := List.find?_some hf
    simp only [decide_eq_true_eq] at hp
    have hxe := List.inj_on_of_nodup_map huniq hx hmem hp
    rw [hxe]

theorem emittedRole_eq (data : ApiKeyResourceModel) (n : String) :
    emittedRole data n = mapGet (roleDescriptorsMap data) n := by
  simp [emittedRole, transformApiKeyResourceBody, mapSet, mapGet]

theorem emittedRole_last (data : ApiKeyResourceModel) (n : String) :
    emittedRole data n =
      (data.RoleDescriptors.Elements.reverse.find?
        (fun rd => decide (rd.Name.ValueString = n))).map roleBody := by
  rw [emittedRole_eq, roleDescriptorsMap, rawRoleDescriptors_eq, foldl_mapGet]

theorem emittedRole_of_unique (data : ApiKeyResourceModel) (rd : RoleDescriptor)
    (hmem : rd ∈ data.RoleDescriptors.Elements)
    (huniq : (data.RoleDescriptors.Elements.map (fun r => r.Name.ValueString)).Nodup) :
    emittedRole data rd.Name.ValueString = some (roleBody rd) := by
  rw [emittedRole_last, find_last_of_nodup _ rd hmem huniq]
  rfl

theorem emittedRole_of_mem (data : ApiKeyResourceModel) (rd : RoleDescriptor)
    (hmem : rd ∈ data.RoleDescriptors.Elements) :
    ∃ last, last ∈ data.RoleDescriptors.Elements ∧
      last.Name.ValueString = rd.Name.ValueString ∧
      ((data.RoleDescriptors.Elements.map (fun r => r.Name.ValueString)).Nodup → last = rd) ∧
      emittedRole data rd.Name.ValueString = some (roleBody last) := by
  rw [emittedRole_last]
  cases hf : data.RoleDescriptors.Elements.reverse.find?
      (fun r => decide (r.Name.ValueString = rd.Name.ValueString)) with
  | none =>
    rw [List.find?_eq_none] at hf
    have h := hf rd (by simpa using hmem)
    simp at h
  | some x =>
    have hx : x ∈ data.RoleDescriptors.Elements := by
      simpa using List.mem_of_find?_eq_some hf
    have hp := List.find?_some hf
    simp only [decide_eq_true_eq] at hp
    refine ⟨x, hx, hp, fun hu => ?_, rfl⟩
    have h := find_last_of_nodup _ rd hmem hu
    rw [hf] at h
    exact Option.some.inj h

theorem length_of_same_members (keys names : List String)
    (hmem : ∀ k, k ∈ keys ↔ k ∈ names) (hnd : keys.Nodup) :
    keys.length ≤ names.length ∧ (keys.length = names.length ↔ names.Nodup) := by
  have h1 : keys.toFinset = names.toFinset := by
    ext k
    simp [hmem]
  have h2 : keys.length = names.toFinset.card := by
    rw [← h1, List.toFinset_card_of_nodup hnd]
  refine ⟨by rw [h2]; exact List.toFinset_card_le names, ?_⟩
  rw [h2]
  constructor
  · intro h
    have h3 : (names : Multiset String).toFinset.card = Multiset.card (names : Multiset String) := h
    exact Multiset.coe_nodup.1 (Multiset.toFinset_card_eq_card_iff_nodup.1 h3)
  · intro h
    exact List.toFinset_card_of_nodup h

theorem roleBody_entry (rd : RoleDescriptor) (i : Nat) (hi : i < rd.Indicies.Elements.length) :
    ((some (roleBody rd)).bind (fun body => body.field "index")).bind
        (fun index => index.item i) =
      some (indexBody (rd.Indicies.Elements.get ⟨i, hi⟩)) := by
  simp [roleBody, sliceElems_ElementsAs, fillIndex_eq_map, Value.field, mapGet, Value.item,
    List.getElem?_eq_getElem hi]

/-! ## The body built by `transformApiKeyResourceBody` -/

/-- C1, as the code has it: for the `cluster` list `["a", null]` the call that
fills the slice fails and the pre-allocated slice of two empty strings is
emitted, so the first emitted element is `""` where the input has `"a"`; and
for a `cluster` list that is not supplied no array is emitted at all. -/
theorem null_element_breaks_sequence :
    emittedCluster planNullElement "role-a" = some (Value.arr [Value.str "", Value.str ""]) ∧
    (emittedCluster planNullElement "role-a").bind (fun c => c.item 0) ≠
      some (Value.str "a") ∧
    emittedCluster planBare "role-a" = some Value.null := by
  refine ⟨?_, ?_, ?_⟩
  · simp [emittedCluster, emittedRole, transformApiKeyResourceBody, roleDescriptorsMap,
      rawRoleDescriptors, planNullElement, Tf.ElementsAs, Tf.Elements, buildAll, intoStruct,
      intoString, goMake, sliceElems, mapSet, mapGet, Tf.ValueString, roleBody, Value.field,
      stringsValue, List.replicate]
  · simp [emittedCluster, emittedRole, transformApiKeyResourceBody, roleDescriptorsMap,
      rawRoleDescriptors, planNullElement, Tf.ElementsAs, Tf.Elements, buildAll, intoStruct,
      intoString, goMake, sliceElems, mapSet, mapGet, Tf.ValueString, roleBody, Value.field,
      stringsValue, List.replicate, Value.item]
  · simp [emittedCluster, emittedRole, transformApiKeyResourceBody, roleDescriptorsMap,
      rawRoleDescriptors, planBare, Tf.ElementsAs, buildAll, intoStruct, sliceElems, mapSet,
      mapGet, Tf.ValueString, roleBody, Value.field, stringsValue]

/-- C1 amended: with pairwise distinct role names, when a descriptor's
`cluster` list is supplied and holds only non-null strings, the `cluster` array
emitted under the descriptor's name is that list, element by element (same
length, order and repetitions); likewise the `names` and `privileges` arrays
emitted for its `i`-th Index entry are the entry's `names` and `privileges`
lists whenever these hold only non-null strings. -/
theorem transform_preserves_supplied_sequences (data : ApiKeyResourceModel)
    (rd : RoleDescriptor)
    (hmem : rd ∈ data.RoleDescriptors.Elements)
    (huniq : (data.RoleDescriptors.Elements.map (fun r => r.Name.ValueString)).Nodup) :
    (∀ cluster, rd.Cluster = suppliedStrings cluster →
      emittedCluster data rd.Name.ValueString = some (Value.arr (cluster.map Value.str))) ∧
    (∀ (i : Nat) (hi : i < rd.Indicies.Elements.length),
      (∀ names, (rd.Indicies.Elements.get ⟨i, hi⟩).Names = suppliedStrings names →
        emittedNames data rd.Name.ValueString i = some (Value.arr (names.map Value.str))) ∧
      (∀ privileges,
        (rd.Indicies.Elements.get ⟨i, hi⟩).Privileges = suppliedStrings privileges →
        emittedPrivileges data rd.Name.ValueString i =
          some (Value.arr (privileges.map Value.str)))) := by
  unfold emittedNames emittedPrivileges emittedEntry emittedIndex emittedCluster
  rw [emittedRole_of_unique data rd hmem huniq]
  refine ⟨fun cluster hc => ?_, fun i hi => ?_⟩
  · simp [roleBody, hc, ElementsAs_supplied, stringsValue, Value.field, mapGet]
  · rw [roleBody_entry rd i hi]
    generalize rd.Indicies.Elements.get ⟨i, hi⟩ = e
    refine ⟨fun names hn => ?_, fun privs hp => ?_⟩
    · simp [indexBody, hn, ElementsAs_supplied, stringsValue, Value.field, mapGet]
    · simp [indexBody, hp, ElementsAs_supplied, stringsValue, Value.field, mapGet]

/-- Witness of the amended C1 on the plan `planTwo`, role `roleRepeat`, second
Index entry: repeated elements are kept, in order. -/
theorem transform_preserves_supplied_sequences_witness :
    roleRepeat ∈ planTwo.RoleDescriptors.Elements ∧
    (planTwo.RoleDescriptors.Elements.map (fun r => r.Name.ValueString)).Nodup ∧
    emittedCluster planTwo "role-b" =
      some (Value.arr [Value.str "monitor", Value.str "manage", Value.str "monitor"]) ∧
    emittedNames planTwo "role-b" 1 =
      some (Value.arr [Value.str "b", Value.str "a", Value.str "b"]) ∧
    emittedPrivileges planTwo "role-b" 1 =
      some (Value.arr [Value.str "write", Value.str "read", Value.str "read"]) :=
  have hmem : roleRepeat ∈ planTwo.RoleDescriptors.Elements := by
    simp [planTwo, Tf.Elements]
  have huniq : (planTwo.RoleDescriptors.Elements.map (fun r => r.Name.ValueString)).Nodup := by
    simp [planTwo, Tf.Elements, roleGrant, roleRepeat, Tf.ValueString]
  ⟨hmem, huniq,
    (transform_preserves_supplied_sequences planTwo roleRepeat hmem huniq).1
      ["monitor", "manage", "monitor"] rfl,
    ((transform_preserves_supplied_sequences planTwo roleRepeat hmem huniq).2 1
      (by decide)).1 ["b", "a", "b"] rfl,
    ((transform_preserves_supplied_sequences planTwo roleRepeat hmem huniq).2 1
      (by decide)).2 ["write", "read", "read"] rfl⟩

/-- C2: the value under a key `n` of `role_descriptors` is the body of the last
descriptor of the input whose name is `n`; for two descriptors of the same name
`r` the whole body is the single entry `r` holding the second descriptor's
body, and its `cluster` is the second descriptor's list alone, which is the
concatenation of the two lists only when the first list is empty. -/
theorem transform_last_write_wins :
    (∀ (data : ApiKeyResourceModel) (n : String),
      emittedRole data n =
        (data.RoleDescriptors.Elements.reverse.find?
          (fun rd => decide (rd.Name.ValueString = n))).map roleBody) ∧
    (∀ (id apiKey encoded name : Tf String) (r : String) (c₁ c₂ : Tf (List (Tf String)))
        (indices : Tf (List Index)),
      transformApiKeyResourceBody ⟨id, apiKey, encoded, name,
          Tf.known [⟨Tf.known r, c₁, indices⟩, ⟨Tf.known r, c₂, indices⟩]⟩ =
        [("role_descriptors", Value.obj [(r, roleBody ⟨Tf.known r, c₂, indices⟩)])]) ∧
    (∀ (id apiKey encoded name : Tf String) (r : String) (c₁ c₂ : List String)
        (indices : Tf (List Index)),
      emittedCluster ⟨id, apiKey, encoded, name,
          Tf.known [⟨Tf.known r, suppliedStrings c₁, indices⟩,
            ⟨Tf.known r, suppliedStrings c₂, indices⟩]⟩
          r = some (Value.arr (c₂.map Value.str)) ∧
      (c₁ = [] ∨ Value.arr (c₂.map Value.str) ≠ Value.arr ((c₁ ++ c₂).map Value.str))) := by
  refine ⟨emittedRole_last, ?_, ?_⟩
  · intro id apiKey encoded name r c₁ c₂ indices
    simp [transformApiKeyResourceBody, roleDescriptorsMap, rawRoleDescriptors_eq, Tf.Elements,
      mapSet, Tf.ValueString]
  · intro id apiKey encoded name r c₁ c₂ indices
    constructor
    · simp [emittedCluster, emittedRole, transformApiKeyResourceBody, roleDescriptorsMap,
        rawRoleDescriptors_eq, Tf.Elements, mapSet, mapGet, Tf.ValueString, roleBody,
        ElementsAs_supplied, Value.field, stringsValue]
    · by_cases h : c₁ = []
      · exact Or.inl h
      · refine Or.inr (fun he => h ?_)
        have h1 : c₂.map Value.str = (c₁ ++ c₂).map Value.str := Value.arr.inj he
        have h2 := congrArg List.length h1
        simp only [List.length_map, List.length_append] at h2
        exact List.length_eq_zero.1 (by omega)

/-- C3: a resource whose set of role descriptors is empty gives exactly the
object with the single key `role_descriptors` holding the empty object,
whatever its other attributes are. -/
theorem transform_empty_set (id apiKey encoded name : Tf String) :
    transformApiKeyResourceBody ⟨id, apiKey, encoded, name, Tf.known []⟩ =
      [("role_descriptors", Value.obj [])] := by
  simp [transformApiKeyResourceBody, roleDescriptorsMap, rawRoleDescriptors_eq, Tf.Elements,
    mapSet]

/-- C4, as the code has it, at the plan of the acceptance test: a `cluster`
list that is not supplied is emitted as `null`, not as an empty array, so the
body is not the one with `"cluster": []`. -/
theorem unsupplied_cluster_not_empty_array :
    emittedCluster planBare "role-a" = some Value.null ∧
    transformApiKeyResourceBody planBare ≠
      [("role_descriptors",
        Value.obj [("role-a", Value.obj [("cluster", Value.arr []), ("index", Value.arr [])])])] := by
  constructor
  · simp [emittedCluster, emittedRole, transformApiKeyResourceBody, roleDescriptorsMap,
      rawRoleDescriptors_eq, Tf.Elements, planBare, Tf.ElementsAs, mapSet, mapGet,
      Tf.ValueString, roleBody, Value.field, stringsValue]
  · simp [transformApiKeyResourceBody, roleDescriptorsMap, rawRoleDescriptors_eq, Tf.Elements,
      planBare, Tf.ElementsAs, mapSet, Tf.ValueString, roleBody, stringsValue]

/-- C4 amended: for every role descriptor, the object emitted under its name has
exactly the keys `cluster` and `index` and is built from a descriptor `last` of
that name (the descriptor itself when the names are pairwise distinct); `index`
is an array with exactly one element per Index entry of `last`, hence empty
when `indices` is empty or not supplied, and each of its elements has exactly
the keys `names` and `privileges`; a supplied empty `cluster`, `names` or
`privileges` list is emitted as an empty array.  The single role `role-a` with
`cluster = []` and `indices = []` gives `role_descriptors` with the single key
`role-a` holding `cluster = []` and `index = []`. -/
theorem role_body_keys_present :
    (∀ (data : ApiKeyResourceModel) (rd : RoleDescriptor),
      rd ∈ data.RoleDescriptors.Elements →
      ∃ last cluster index,
        last ∈ data.RoleDescriptors.Elements ∧
        last.Name.ValueString = rd.Name.ValueString ∧
        ((data.RoleDescriptors.Elements.map (fun r => r.Name.ValueString)).Nodup →
          last = rd) ∧
        emittedRole data rd.Name.ValueString =
          some (Value.obj [("cluster", cluster), ("index", Value.arr index)]) ∧
        (last.Cluster = Tf.known [] → cluster = Value.arr []) ∧
        index.length = last.Indicies.Elements.length ∧
        (last.Indicies.Elements = [] → index = []) ∧
        ∀ (i : Nat) (hi : i < last.Indicies.Elements.length),
          ∃ names privileges,
            index.get? i = some (Value.obj [("names", names), ("privileges", privileges)]) ∧
            ((last.Indicies.Elements.get ⟨i, hi⟩).Names = Tf.known [] →
              names = Value.arr []) ∧
            ((last.Indicies.Elements.get ⟨i, hi⟩).Privileges = Tf.known [] →
              privileges = Value.arr [])) ∧
    transformApiKeyResourceBody planEmpty =
      [("role_descriptors",
        Value.obj [("role-a", Value.obj [("cluster", Value.arr []), ("index", Value.arr [])])])] := by
  constructor
  · intro data rd hmem
    obtain ⟨last, hlast, hname, huniq, hem⟩ := emittedRole_of_mem data rd hmem
    rw [hem]
    refine ⟨last,
      stringsValue (last.Cluster.ElementsAs intoString (goMake last.Cluster.Elements.length "")),
      last.Indicies.Elements.map indexBody, hlast, hname, huniq, ?_, ?_, by simp, ?_, ?_⟩
    · simp only [roleBody, sliceElems_ElementsAs, fillIndex_eq_map]
    · intro hc
      simp [hc, ElementsAs_empty, stringsValue]
    · intro he
      simp [he]
    · intro i hi
      refine ⟨stringsValue ((last.Indicies.Elements.get ⟨i, hi⟩).Names.ElementsAs intoString
          (goMake (last.Indicies.Elements.get ⟨i, hi⟩).Names.Elements.length "")),
        stringsValue ((last.Indicies.Elements.get ⟨i, hi⟩).Privileges.ElementsAs intoString
          (goMake (last.Indicies.Elements.get ⟨i, hi⟩).Privileges.Elements.length "")),
        ?_, ?_, ?_⟩
      · rw [List.get?_eq_getElem?, List.getElem?_map, List.getElem?_eq_getElem hi]
        simp only [Option.map_some', indexBody, List.get_eq_getElem]
      · intro hn
        have hn2 : last.Indicies.Elements[i].Names = Tf.known [] := by simpa using hn
        simp [hn2, ElementsAs_empty, stringsValue]
      · intro hp
        have hp2 : last.Indicies.Elements[i].Privileges = Tf.known [] := by simpa using hp
        simp [hp2, ElementsAs_empty, stringsValue]
  · simp [transformApiKeyResourceBody, roleDescriptorsMap, rawRoleDescriptors_eq, Tf.Elements,
      planEmpty, Tf.ElementsAs, buildAll, sliceElems, mapSet, Tf.ValueString, roleBody,
      stringsValue, fillIndex_eq_map]

/-- Witness of the amended C4 on the plan `planEmptyEntry`, whose role has an
empty `cluster` list and one Index entry with empty `names` and `privileges`:
every empty list is emitted as an empty array. -/
theorem role_body_keys_present_witness :
    roleEmptyEntry ∈ planEmptyEntry.RoleDescriptors.Elements ∧
    ∃ cluster index names privileges,
      emittedRole planEmptyEntry "role-a" =
        some (Value.obj [("cluster", cluster), ("index", Value.arr index)]) ∧
      cluster = Value.arr [] ∧
      index.length = 1 ∧
      index.get? 0 = some (Value.obj [("names", names), ("privileges", privileges)]) ∧
      names = Value.arr [] ∧ privileges = Value.arr [] :=
  have hmem : roleEmptyEntry ∈ planEmptyEntry.RoleDescriptors.Elements := by
    simp [planEmptyEntry, Tf.Elements]
  have huniq :
      (planEmptyEntry.RoleDescriptors.Elements.map (fun r => r.Name.ValueString)).Nodup := by
    simp [planEmptyEntry, Tf.Elements]
  ⟨hmem,
    match role_body_keys_present.1 planEmptyEntry roleEmptyEntry hmem with
    | ⟨last, cluster, index, _, _, hu, h, hc, hl, _, hi⟩ =>
      have hlast : last = roleEmptyEntry := hu huniq
      have h0 : 0 < last.Indicies.Elements.length := by
        rw [hlast]
        decide
      match hi 0 h0 with
      | ⟨names, privileges, hget, hn, hp⟩ =>
        ⟨cluster, index, names, privileges, h, hc (by rw [hlast]; rfl),
          by rw [hl, hlast]; rfl, hget,
          hn (by subst hlast; rfl), hp (by subst hlast; rfl)⟩⟩

/-- C5: with pairwise distinct role names, the `index` array emitted under a
descriptor's name has as many elements as the descriptor has Index entries, and
its `i`-th element is the object with exactly the keys `names` and `privileges`
built from the `i`-th entry: the entry's `names` and `privileges` lists as
arrays.  The role of the index-grant scenario gives the object of the
scenario. -/
theorem transform_index_array :
    (∀ (data : ApiKeyResourceModel) (rd : RoleDescriptor),
      rd ∈ data.RoleDescriptors.Elements →
      (data.RoleDescriptors.Elements.map (fun r => r.Name.ValueString)).Nodup →
      ∃ index,
        emittedIndex data rd.Name.ValueString = some (Value.arr index) ∧
        index.length = rd.Indicies.Elements.length ∧
        ∀ (i : Nat) (hi : i < rd.Indicies.Elements.length),
          ∃ names privileges,
            index.get? i = some (Value.obj [("names", names), ("privileges", privileges)]) ∧
            (∀ ns, (rd.Indicies.Elements.get ⟨i, hi⟩).Names = suppliedStrings ns →
              names = Value.arr (ns.map Value.str)) ∧
            (∀ ps, (rd.Indicies.Elements.get ⟨i, hi⟩).Privileges = suppliedStrings ps →
              privileges = Value.arr (ps.map Value.str))) ∧
    emittedRole planGrant "role-a" =
      some (Value.obj [("cluster", Value.arr [Value.str "monitor"]),
        ("index", Value.arr [Value.obj [("names", Value.arr [Value.str "logs-*"]),
          ("privileges", Value.arr [Value.str "read"])]])]) := by
  constructor
  · intro data rd hmem huniq
    unfold emittedIndex
    rw [emittedRole_of_unique data rd hmem huniq]
    refine ⟨rd.Indicies.Elements.map indexBody, ?_, by simp, ?_⟩
    · simp [roleBody, sliceElems_ElementsAs, fillIndex_eq_map, Value.field, mapGet]
    · intro i hi
      refine ⟨stringsValue ((rd.Indicies.Elements.get ⟨i, hi⟩).Names.ElementsAs intoString
          (goMake (rd.Indicies.Elements.get ⟨i, hi⟩).Names.Elements.length "")),
        stringsValue ((rd.Indicies.Elements.get ⟨i, hi⟩).Privileges.ElementsAs intoString
          (goMake (rd.Indicies.Elements.get ⟨i, hi⟩).Privileges.Elements.length "")),
        ?_, ?_, ?_⟩
      · rw [List.get?_eq_getElem?, List.getElem?_map, List.getElem?_eq_getElem hi]
        simp only [Option.map_some', indexBody, List.get_eq_getElem]
      · intro ns hn
        have hn2 : rd.Indicies.Elements[i].Names = suppliedStrings ns := by simpa using hn
        simp [hn2, ElementsAs_supplied, stringsValue]
      · intro ps hp
        have hp2 : rd.Indicies.Elements[i].Privileges = suppliedStrings ps := by
          simpa using hp
        simp [hp2, ElementsAs_supplied, stringsValue]
  · simp [emittedRole, transformApiKeyResourceBody, roleDescriptorsMap, rawRoleDescriptors_eq,
      Tf.Elements, planGrant, roleGrant, suppliedStrings, Tf.ElementsAs, buildAll, intoStruct,
      intoString, sliceElems, mapSet, mapGet, Tf.ValueString, roleBody, stringsValue,
      fillIndex_eq_map, indexBody]

/-- Witness of C5 on the plan `planTwo`, role `roleRepeat`, which has two
Index entries. -/
theorem transform_index_array_witness :
    roleRepeat ∈ planTwo.RoleDescriptors.Elements ∧
    (planTwo.RoleDescriptors.Elements.map (fun r => r.Name.ValueString)).Nodup ∧
    ∃ index,
      emittedIndex planTwo "role-b" = some (Value.arr index) ∧
      index.length = 2 :=
  have hmem : roleRepeat ∈ planTwo.RoleDescriptors.Elements := by
    simp [planTwo, Tf.Elements]
  have huniq : (planTwo.RoleDescriptors.Elements.map (fun r => r.Name.ValueString)).Nodup := by
    simp [planTwo, Tf.Elements, roleGrant, roleRepeat, Tf.ValueString]
  ⟨hmem, huniq,
    match transform_index_array.1 planTwo roleRepeat hmem huniq with
    | ⟨index, h, hl, _⟩ => ⟨index, h, hl⟩⟩

/-- C10: the keys of the `role_descriptors` object are pairwise distinct and
are exactly the names of the input descriptors, so there are at most as many
keys as descriptors, with equality exactly when the names are pairwise
distinct; the body does not depend on `Id`, `ApiKey`, `Encoded` or `Name`. -/
theorem role_descriptor_keys (data : ApiKeyResourceModel) :
    ∃ m, transformApiKeyResourceBody data = [("role_descriptors", Value.obj m)] ∧
      (∀ k, k ∈ mapKeys m ↔
        k ∈ data.RoleDescriptors.Elements.map (fun rd => rd.Name.ValueString)) ∧
      (mapKeys m).Nodup ∧
      (mapKeys m).length ≤ data.RoleDescriptors.Elements.length ∧
      ((mapKeys m).length = data.RoleDescriptors.Elements.length ↔
        (data.RoleDescriptors.Elements.map (fun rd => rd.Name.ValueString)).Nodup) ∧
      ∀ id apiKey encoded name : Tf String,
        transformApiKeyResourceBody ⟨id, apiKey, encoded, name, data.RoleDescriptors⟩ =
          transformApiKeyResourceBody data := by
  refine ⟨roleDescriptorsMap data, by simp [transformApiKeyResourceBody, mapSet], ?_⟩
  have hk : ∀ k, k ∈ mapKeys (roleDescriptorsMap data) ↔
      k ∈ data.RoleDescriptors.Elements.map (fun rd => rd.Name.ValueString) := by
    intro k
    rw [roleDescriptorsMap, rawRoleDescriptors_eq]
    exact (foldl_mapKeys _).1 k
  have hn : (mapKeys (roleDescriptorsMap data)).Nodup := by
    rw [roleDescriptorsMap, rawRoleDescriptors_eq]
    exact (foldl_mapKeys _).2
  have hl := length_of_same_members _ _ hk hn
  rw [List.length_map] at hl
  exact ⟨hk, hn, hl.1, hl.2, fun _ _ _ _ => rfl⟩

/-! ## The request bodies and the outcomes of the operations -/

theorem Create_request (data : ApiKeyResourceModel) (doResult : DoResult) :
    (Create (Except.ok data) doResult).request =
      some (Value.obj (mapSet (transformApiKeyResourceBody data) "name"
        (Value.str data.Name.ValueString))) := by
  unfold Create
  simp only []
  repeat' split
  all_goals rfl

theorem Update_request (data : ApiKeyResourceModel) (doResult : DoResult) :
    (Update (Except.ok data) doResult).request =
      some (Value.obj (transformApiKeyResourceBody data)) := by
  unfold Update
  simp only []
  repeat' split
  all_goals rfl

theorem Delete_request (data : ApiKeyResourceModel) (doResult : DoResult) :
    (Delete (Except.ok data) doResult).request =
      some (Value.obj [("ids", Value.arr [Value.str data.Id.ValueString])]) := by
  unfold Delete
  simp only []
  repeat' split
  all_goals rfl

/-- A successful response whose `id`, `api_key` and `encoded` members are
strings: `Create` passes the plan with these three values to `State.Set`, adds
no diagnostic and does not fault. -/
theorem Create_persists (data : ApiKeyResourceModel) (status : String) (result : GoMap)
    (id apiKey encoded : String)
    (hid : mapGet result "id" = some (Value.str id))
    (hkey : mapGet result "api_key" = some (Value.str apiKey))
    (henc : mapGet result "encoded" = some (Value.str encoded)) :
    (Create (Except.ok data) (DoResult.response false status (Except.ok result))).stateSet =
        some ⟨Tf.known id, Tf.known apiKey, Tf.known encoded, data.Name, data.RoleDescriptors⟩ ∧
      (Create (Except.ok data) (DoResult.response false status (Except.ok result))).diags = [] ∧
      (Create (Except.ok data) (DoResult.response false status (Except.ok result))).faulted =
        false := by
  simp [Create, hid, hkey, henc, assertString]

/-- A successful response in which one of `id`, `api_key`, `encoded` is absent
or is not a string: `Create` ends in a run-time panic, with no diagnostic and
nothing passed to `State.Set`. -/
theorem Create_faults (data : ApiKeyResourceModel) (status : String) (result : GoMap)
    (h : assertString (mapGet result "id") = none ∨
      assertString (mapGet result "api_key") = none ∨
      assertString (mapGet result "encoded") = none) :
    (Create (Except.ok data) (DoResult.response false status (Except.ok result))).faulted =
        true ∧
      (Create (Except.ok data) (DoResult.response false status (Except.ok result))).diags = [] ∧
      (Create (Except.ok data) (DoResult.response false status (Except.ok result))).stateSet =
        none := by
  unfold Create
  simp only [Bool.false_eq_true, if_false]
  rcases h with h | h | h
  · simp [h]
  · cases h1 : assertString (mapGet result "id") <;> simp [h]
  · cases h1 : assertString (mapGet result "id") <;>
      cases h2 : assertString (mapGet result "api_key") <;> simp [h]

/-- C6: the body `Create` sends is the result of `transformApiKeyResourceBody`
with the key `name` added: exactly the two keys `role_descriptors` and `name`,
`name` being the resource's name and `role_descriptors` the value the
transformation built; the body `Update` sends is the result of the
transformation itself, which has the single key `role_descriptors` and no
`name`. -/
theorem create_update_request_bodies (data : ApiKeyResourceModel) (doResult : DoResult) :
    (∃ body, (Create (Except.ok data) doResult).request = some (Value.obj body) ∧
      mapKeys body = ["role_descriptors", "name"] ∧
      mapGet body "name" = some (Value.str data.Name.ValueString) ∧
      mapGet body "role_descriptors" =
        mapGet (transformApiKeyResourceBody data) "role_descriptors" ∧
      mapGet body "role_descriptors" = some (Value.obj (roleDescriptorsMap data))) ∧
    (Update (Except.ok data) doResult).request =
      some (Value.obj (transformApiKeyResourceBody data)) ∧
    mapKeys (transformApiKeyResourceBody data) = ["role_descriptors"] ∧
    mapGet (transformApiKeyResourceBody data) "name" = none := by
  refine ⟨⟨_, Create_request data doResult, ?_, ?_, ?_, ?_⟩, Update_request data doResult, ?_, ?_⟩
  all_goals simp [transformApiKeyResourceBody, mapSet, mapGet, mapKeys]

/-- C7: for a persisted id `s` the body `Delete` sends is exactly the object
with the single key `ids` holding the one-element array `[s]`, the empty
string included; the id `abc123` gives `ids = ["abc123"]`. -/
theorem delete_request_body :
    (∀ (s : String) (apiKey encoded name : Tf String) (roles : Tf (List RoleDescriptor))
        (doResult : DoResult),
      (Delete (Except.ok ⟨Tf.known s, apiKey, encoded, name, roles⟩) doResult).request =
        some (Value.obj [("ids", Value.arr [Value.str s])])) ∧
    (∀ (apiKey encoded name : Tf String) (roles : Tf (List RoleDescriptor))
        (doResult : DoResult),
      (Delete (Except.ok ⟨Tf.known "abc123", apiKey, encoded, name, roles⟩) doResult).request =
        some (Value.obj [("ids", Value.arr [Value.str "abc123"])])) :=
  ⟨fun s apiKey encoded name roles doResult =>
      Delete_request ⟨Tf.known s, apiKey, encoded, name, roles⟩ doResult,
    fun apiKey encoded name roles doResult =>
      Delete_request ⟨Tf.known "abc123", apiKey, encoded, name, roles⟩ doResult⟩

/-- C8 on the code: after a transport error `Create` and `Update` add the
`API Error` diagnostic and return without touching the response, while
`Delete` adds the diagnostic, goes on, dereferences the nil response and ends
in a run-time panic. -/
theorem delete_transport_error_dereferences (data : ApiKeyResourceModel) (err : String) :
    ((Create (Except.ok data) (DoResult.transportError err)).diags.map Diag.summary =
        ["API Error"] ∧
      (Create (Except.ok data) (DoResult.transportError err)).responseUsed = false ∧
      (Create (Except.ok data) (DoResult.transportError err)).faulted = false ∧
      (Create (Except.ok data) (DoResult.transportError err)).stateSet = none) ∧
    ((Update (Except.ok data) (DoResult.transportError err)).diags.map Diag.summary =
        ["API Error"] ∧
      (Update (Except.ok data) (DoResult.transportError err)).responseUsed = false ∧
      (Update (Except.ok data) (DoResult.transportError err)).faulted = false ∧
      (Update (Except.ok data) (DoResult.transportError err)).stateSet = none) ∧
    ((Delete (Except.ok data) (DoResult.transportError err)).diags.map Diag.summary =
        ["API Error"] ∧
      (Delete (Except.ok data) (DoResult.transportError err)).responseUsed = true ∧
      (Delete (Except.ok data) (DoResult.transportError err)).faulted = true) := by
  simp [Create, Update, Delete]

/-- C9 on the code: a successful response whose body is the empty object, or
whose `id` is a number, makes `Create` end in a run-time panic (the unchecked
assertion `result["id"].(string)`), with no diagnostic added and nothing passed
to `State.Set`. -/
theorem create_unchecked_assertion_faults (data : ApiKeyResourceModel) (status : String)
    (n : Int) (apiKey encoded : String) :
    ((Create (Except.ok data) (DoResult.response false status (Except.ok []))).faulted = true ∧
      (Create (Except.ok data) (DoResult.response false status (Except.ok []))).diags = [] ∧
      (Create (Except.ok data) (DoResult.response false status (Except.ok []))).stateSet =
        none) ∧
    ((Create (Except.ok data) (DoResult.response false status (Except.ok
        [("id", Value.num n), ("api_key", Value.str apiKey),
          ("encoded", Value.str encoded)]))).faulted = true ∧
      (Create (Except.ok data) (DoResult.response false status (Except.ok
        [("id", Value.num n), ("api_key", Value.str apiKey),
          ("encoded", Value.str encoded)]))).diags = [] ∧
      (Create (Except.ok data) (DoResult.response false status (Except.ok
        [("id", Value.num n), ("api_key", Value.str apiKey),
          ("encoded", Value.str encoded)]))).stateSet = none) :=
  ⟨Create_faults data status [] (Or.inl rfl),
    Create_faults data status _ (Or.inl rfl)⟩

end ApiKey
